import Mathlib

/-!
Shallow embedding of the incremental-extraction engine of the
`source-instagram` and `source-square` Airbyte connectors
(`source_instagram/streams.py`, `source_instagram/api.py`,
`source_instagram/client/api.py`, `source_square/source.py`).

Python `dict`s are modelled as insertion-ordered association lists
(`List (String × α)`); `dict[k]`/`dict.get` as `lookupA`, and the
assignment `d[k] = v` (or `d.update` with a single key) as `dictSet`,
which replaces the value in place when the key is present and appends
otherwise, exactly like CPython dictionaries.
-/

def lookupA {α : Type} (k : String) : List (String × α) → Option α
  | [] => none
  | p :: ps => if p.1 = k then some p.2 else lookupA k ps

def setA {α : Type} (k : String) (v : α) : List (String × α) → List (String × α)
  | [] => []
  | p :: ps => (if p.1 = k then (k, v) else p) :: setA k v ps

def dictSet {α : Type} (k : String) (v : α) (l : List (String × α)) : List (String × α) :=
  if l.any (fun p => p.1 = k) then setA k v l else l ++ [(k, v)]

theorem lookupA_setA_self {α : Type} {k : String} {v : α} {l : List (String × α)} {w : α}
    (h : lookupA k l = some w) : lookupA k (setA k v l) = some v := by
  induction l with
  | nil => simp [lookupA] at h
  | cons p ps ih =>
    by_cases hk : p.1 = k
    · simp [setA, lookupA, hk]
    · simp [lookupA, hk] at h
      simpa [setA, lookupA, hk] using ih h

theorem lookupA_setA_ne {α : Type} {k k' : String} {v : α} {l : List (String × α)}
    (h : k' ≠ k) : lookupA k' (setA k v l) = lookupA k' l := by
  induction l with
  | nil => simp [setA]
  | cons p ps ih =>
    by_cases hk : p.1 = k
    · simp [setA, lookupA, hk, Ne.symm h, ih]
    · by_cases hk' : p.1 = k' <;> simp [setA, lookupA, hk, hk', h, ih]

theorem lookupA_append_singleton_ne {α : Type} {k k' : String} {v : α} {l : List (String × α)}
    (h : k' ≠ k) : lookupA k' (l ++ [(k, v)]) = lookupA k' l := by
  induction l with
  | nil => simp [lookupA, Ne.symm h]
  | cons p ps ih =>
    by_cases hk' : p.1 = k' <;> simp [lookupA, hk', ih]

theorem any_key_eq_isSome {α : Type} {k : String} {l : List (String × α)} :
    (l.any fun p => p.1 = k) = (lookupA k l).isSome := by
  induction l with
  | nil => simp [lookupA]
  | cons p ps ih =>
    by_cases hk : p.1 = k <;> simp [lookupA, hk, ih]

theorem lookupA_dictSet_self {α : Type} {k : String} {v : α} {l : List (String × α)} :
    lookupA k (dictSet k v l) = some v := by
  unfold dictSet
  by_cases h : (l.any fun p => p.1 = k) = true
  · rw [if_pos h]
    rw [any_key_eq_isSome] at h
    rcases Option.isSome_iff_exists.mp h with ⟨w, hw⟩
    exact lookupA_setA_self hw
  · rw [if_neg h]
    rw [any_key_eq_isSome] at h
    have hnone : lookupA k l = none := by
      cases hl : lookupA k l with
      | none => rfl
      | some w => rw [hl] at h; simp at h
    induction l with
    | nil => simp [lookupA]
    | cons p ps ih =>
      by_cases hk : p.1 = k
      · simp [lookupA, hk] at hnone
      · simp [lookupA, hk] at hnone ⊢
        exact ih (by simp [any_key_eq_isSome, hnone]) hnone

theorem lookupA_dictSet_ne {α : Type} {k k' : String} {v : α} {l : List (String × α)}
    (h : k' ≠ k) : lookupA k' (dictSet k v l) = lookupA k' l := by
  unfold dictSet
  by_cases hc : (l.any fun p => p.1 = k) = true
  · rw [if_pos hc]; exact lookupA_setA_ne h
  · rw [if_neg hc]; exact lookupA_append_singleton_ne h

/-- Python `max(a, b)`: returns `b` exactly when `b` is strictly greater,
otherwise the first argument. -/
def pymax {β : Type} [LinearOrder β] (a b : β) : β :=
  if a < b then b else a

theorem pymax_eq_max {β : Type} [LinearOrder β] (a b : β) : pymax a b = max a b := by
  unfold pymax
  rcases lt_trichotomy a b with h | h | h
  · rw [if_pos h, max_eq_right h.le]
  · subst h; simp
  · rw [if_neg (not_lt.mpr h.le), max_eq_left h.le]

/-!
`InstagramIncrementalStream.state_filter` (streams.py lines 147-161, identical
body in client/api.py lines 234-248).  A record carries the partition key
`record[self.cursor_field]` (a `business_account_id` string) and a cursor
`pendulum.parse(record[self.state_pk])`; parsed pendulum datetimes form a
total order, modelled here by `Nat`.  `self._state` is the per-partition
watermark dict.  `self._state[partition]` raises `KeyError` when the
partition is absent, modelled by the outer `Option`.
-/

structure IGRecord where
  partition : String
  dateVal : Nat

def state_filter (st : List (String × Nat)) (r : IGRecord) :
    Option (Option IGRecord × List (String × Nat)) :=
  match lookupA r.partition st with
  | none => none
  | some w =>
    if r.dateVal ≤ w then some (none, st)
    else some (some r, dictSet r.partition (pymax r.dateVal w) st)

/-!
`IncrementalSquareGenericStream.get_updated_state` (source_square/source.py
lines 121-127).  Stream state and records are string-keyed dicts with RFC 3339
string values, compared lexicographically by Python `max`; Lean `String`
carries the same code-point lexicographic order.  `latest_record[cursor_field]`
raises `KeyError` when absent, modelled by the outer `Option`.
-/

def get_updated_state (cursor_field start_date : String)
    (current_stream_state : Option (List (String × String)))
    (latest_record : List (String × String)) : Option (List (String × String)) :=
  match current_stream_state with
  | some s =>
    match lookupA cursor_field s with
    | some w =>
      (lookupA cursor_field latest_record).map fun c => [(cursor_field, pymax w c)]
    | none => some [(cursor_field, start_date)]
  | none => some [(cursor_field, start_date)]

/-- C1: for an incremental stream, `state_filter` returns `None` and leaves the
stored per-partition state unchanged whenever the record's parsed cursor is
less than or equal to the stored watermark for its partition (in particular
when it is exactly equal), and the record is returned exactly when its cursor
is strictly greater than the stored watermark. -/
theorem state_filter_boundary_exclusive
    (st : List (String × Nat)) (r : IGRecord) (w : Nat)
    (h : lookupA r.partition st = some w) :
    (r.dateVal = w → state_filter st r = some (none, st)) ∧
    (∀ res st', state_filter st r = some (res, st') → (res = some r ↔ w < r.dateVal)) := by
  constructor
  · intro heq
    simp [state_filter, h, heq]
  · intro res st' hrun
    by_cases hle : r.dateVal ≤ w
    · simp [state_filter, h, hle] at hrun
      constructor
      · intro hres; rw [← hrun.1] at hres; cases hres
      · intro hlt; exact absurd hle (not_le.mpr hlt)
    · simp [state_filter, h, hle] at hrun
      constructor
      · intro _; exact not_le.mp hle
      · intro _; exact hrun.1.symm

/-- C1 witness: with watermark 5 stored for partition "acct", a record with
cursor 5 is dropped without a state change, and a record with cursor 6 is
returned. -/
theorem state_filter_boundary_exclusive_witness :
    (state_filter [("acct", 5)] ⟨"acct", 5⟩ = some (none, [("acct", 5)])) ∧
    (some (⟨"acct", 6⟩ : IGRecord) = some (⟨"acct", 6⟩ : IGRecord) ↔ 5 < 6) := by
  constructor
  · exact (state_filter_boundary_exclusive [("acct", 5)] ⟨"acct", 5⟩ 5 (by decide)).1 rfl
  · exact (state_filter_boundary_exclusive [("acct", 5)] ⟨"acct", 6⟩ 5 (by decide)).2
      (some ⟨"acct", 6⟩) [("acct", 6)] rfl

/-- C2: advancing the watermark never decreases it.  For `state_filter`, the
stored watermark for the record's partition afterwards equals
`max(old watermark, candidate cursor)`; for Square's `get_updated_state`, when
the cursor field is present in the current state and in the latest record, the
returned state holds `max(old value, candidate)`. -/
theorem watermark_advance_is_max
    (st : List (String × Nat)) (r : IGRecord) (w : Nat)
    (cf sd : String) (s latest : List (String × String)) (ws c : String)
    (h : lookupA r.partition st = some w)
    (hs : lookupA cf s = some ws)
    (hc : lookupA cf latest = some c) :
    (∃ res st', state_filter st r = some (res, st') ∧
      lookupA r.partition st' = some (max w r.dateVal)) ∧
    get_updated_state cf sd (some s) latest = some [(cf, max ws c)] := by
  constructor
  · by_cases hle : r.dateVal ≤ w
    · refine ⟨none, st, by simp [state_filter, h, hle], ?_⟩
      rw [h, Nat.max_eq_left hle]
    · refine ⟨some r, dictSet r.partition (pymax r.dateVal w) st,
        by simp [state_filter, h, hle], ?_⟩
      rw [lookupA_dictSet_self, pymax_eq_max, Nat.max_comm]
  · simp [get_updated_state, hs, hc, pymax_eq_max]

/-- C2 witness: stored watermark 3 and candidate 7 give max 7 in the Instagram
state dict, and Square state "2021-01-02" with candidate "2021-01-05" yields
max "2021-01-05". -/
theorem watermark_advance_is_max_witness :
    (∃ res st', state_filter [("acct", 3)] ⟨"acct", 7⟩ = some (res, st') ∧
      lookupA "acct" st' = some (max 3 7)) ∧
    get_updated_state "created_at" "2021-01-01"
      (some [("created_at", "2021-01-02")]) [("created_at", "2021-01-05")] =
      some [("created_at", max "2021-01-02" "2021-01-05")] :=
  watermark_advance_is_max [("acct", 3)] ⟨"acct", 7⟩ 3 "created_at" "2021-01-01"
    [("created_at", "2021-01-02")] [("created_at", "2021-01-05")]
    "2021-01-02" "2021-01-05" (by decide) rfl rfl

/-!
`InstagramStream.pagination` (streams.py lines 90-102, identical body in
client/api.py lines 191-203).  A facebook-business `Cursor` is read through
its private fields `_queue` (the buffer of already-fetched items) and
`_finished_iteration` (the completion flag); `load_next_page` refills the
buffer and may set the flag.  The provider is modelled as the cursor state
returned by the initial `get_instance_cursor` call plus the list of successive
states produced by each `load_next_page` call; the run returns the yielded
items together with the number of `load_next_page` calls issued.
-/

structure Page (α : Type) where
  queue : List α
  finishedIteration : Bool

def paginateLoop {α : Type} : Bool → List (Page α) → List α × Nat
  | true, _ => ([], 0)
  | false, [] => ([], 0)
  | false, p :: ps =>
    let r := paginateLoop p.finishedIteration ps
    (p.queue ++ r.1, r.2 + 1)

def pagination {α : Type} (first : Page α) (rest : List (Page α)) : List α × Nat :=
  let r := paginateLoop first.finishedIteration rest
  (first.queue ++ r.1, r.2)

/-- C4: a provider whose successive buffers are `[a, b]`, then `[c]`, then an
empty buffer with the completion flag set makes `pagination` yield exactly
`a, b, c` (no item skipped or duplicated) using exactly two `load_next_page`
calls, and it issues no further `load_next_page` calls once the completion
flag has been observed, whatever further pages the provider could serve. -/
theorem pagination_exhaustive {α : Type} (a b c : α) (extra : List (Page α)) :
    pagination ⟨[a, b], false⟩ (⟨[c], false⟩ :: ⟨[], true⟩ :: extra) = ([a, b, c], 2) := by
  simp [pagination, paginateLoop]

/-!
`retry_pattern` / `backoff_policy` (streams.py line 41, api.py line 40,
client/api.py line 39).

Modelled from the spec: `retry_pattern` is defined in
`source_instagram/common.py`, which is not among the sources; per the spec it
wraps a fallible operation and, on an error of the retryable type
(`FacebookRequestError`), retries with exponential backoff up to a total of
`max_tries = 7` invocations, after which the last error propagates; an error
of any other type propagates immediately; a success is returned as is.  Sleep
durations do not affect the call/outcome structure and are not modelled.
`outcomes i` is what the wrapped operation does on its i-th invocation.
-/

inductive Attempt (α : Type) where
  | ok (a : α)
  | retryable
  | nonRetryable
deriving DecidableEq

inductive RetryResult (α : Type) where
  | success (a : α) (calls : Nat)
  | exhaustedRetries (calls : Nat)
  | fatal (calls : Nat)
deriving DecidableEq

def retryFrom {α : Type} (outcomes : Nat → Attempt α) : Nat → Nat → Nat → RetryResult α
  | _, 0, made => .exhaustedRetries made
  | j, r + 1, made =>
    match outcomes j with
    | .ok a => .success a (made + 1)
    | .nonRetryable => .fatal (made + 1)
    | .retryable =>
      if r = 0 then .exhaustedRetries (made + 1)
      else retryFrom outcomes (j + 1) r (made + 1)

def retryCall {α : Type} (outcomes : Nat → Attempt α) (maxTries : Nat) : RetryResult α :=
  retryFrom outcomes 0 maxTries 0

theorem retryFrom_success {α : Type} {outcomes : Nat → Attempt α} {a : α} :
    ∀ (k j r made : Nat), k < r →
    (∀ i, i < k → outcomes (j + i) = .retryable) →
    outcomes (j + k) = .ok a →
    retryFrom outcomes j r made = .success a (made + k + 1) := by
  intro k
  induction k with
  | zero =>
    intro j r made hk _ hok
    obtain ⟨r', rfl⟩ := Nat.exists_eq_succ_of_ne_zero (Nat.pos_iff_ne_zero.mp hk)
    simp only [Nat.add_zero] at hok
    simp [retryFrom, hok]
  | succ k ih =>
    intro j r made hk hretry hok
    have hrpos : 0 < r := Nat.lt_of_le_of_lt (Nat.zero_le _) hk
    obtain ⟨r', rfl⟩ := Nat.exists_eq_succ_of_ne_zero (Nat.pos_iff_ne_zero.mp hrpos)
    have h0 : outcomes j = .retryable := by simpa using hretry 0 (Nat.succ_pos k)
    have hr' : k < r' := Nat.lt_of_succ_lt_succ hk
    have hr0 : r' ≠ 0 := Nat.pos_iff_ne_zero.mp (Nat.lt_of_le_of_lt (Nat.zero_le _) hr')
    have hrec := ih (j + 1) r' (made + 1) hr'
      (fun i hi => by
        have h2 := hretry (i + 1) (Nat.succ_lt_succ hi)
        have h3 : j + 1 + i = j + (i + 1) := by omega
        rw [h3]; exact h2)
      (by
        have h3 : j + 1 + k = j + (k + 1) := by omega
        rw [h3]; exact hok)
    simp only [retryFrom, h0, if_neg hr0]
    rw [hrec]
    have h4 : made + 1 + k + 1 = made + (k + 1) + 1 := by omega
    rw [h4]
    

theorem retryFrom_exhaust {α : Type} {outcomes : Nat → Attempt α} :
    ∀ (r j made : Nat), 1 ≤ r →
    (∀ i, i < r → outcomes (j + i) = .retryable) →
    retryFrom outcomes j r made = .exhaustedRetries (made + r) := by
  intro r
  induction r with
  | zero => intro _ _ h; cases h
  | succ r' ih =>
    intro j made _ hretry
    have h0 : outcomes j = .retryable := by simpa using hretry 0 (Nat.succ_pos r')
    by_cases hr0 : r' = 0
    · subst hr0
      simp [retryFrom, h0]
    · have hrec := ih (j + 1) (made + 1) (Nat.pos_iff_ne_zero.mpr hr0)
        (fun i hi => by
          have h2 := hretry (i + 1) (Nat.succ_lt_succ hi)
          have h3 : j + 1 + i = j + (i + 1) := by omega
          rw [h3]; exact h2)
      simp only [retryFrom, h0, if_neg hr0]
      rw [hrec]
      have h4 : made + 1 + r' = made + (r' + 1) := by omega
      rw [h4]

/-- C3: with the default `max_tries = 7`, an operation that fails with a
retryable error exactly `k < 7` times and then succeeds makes `retryCall`
return the success after exactly `k + 1` invocations; an operation whose
first 7 invocations all fail retryably makes it raise after exactly 7
invocations; a non-retryable error on the first invocation propagates after
a single invocation. -/
theorem retry_policy_bound {α : Type} (outcomes : Nat → Attempt α) (k : Nat) (a : α) :
    (k < 7 → (∀ i, i < k → outcomes i = .retryable) → outcomes k = .ok a →
      retryCall outcomes 7 = .success a (k + 1)) ∧
    ((∀ i, i < 7 → outcomes i = .retryable) →
      retryCall outcomes 7 = .exhaustedRetries 7) ∧
    (outcomes 0 = .nonRetryable → retryCall outcomes 7 = .fatal 1) := by
  refine ⟨?_, ?_, ?_⟩
  · intro hk hretry hok
    have := @retryFrom_success α outcomes a k 0 7 0 hk
      (fun i hi => by simpa using hretry i hi) (by simpa using hok)
    simpa [retryCall] using this
  · intro hretry
    have := @retryFrom_exhaust α outcomes 7 0 0 (by omega)
      (fun i hi => by simpa using hretry i hi)
    simpa [retryCall] using this
  · intro h0
    simp [retryCall, retryFrom, h0]

/-- C3 witness: an operation failing retryably twice then returning 5
succeeds after 3 invocations; one failing retryably on its first 7
invocations exhausts after 7; one failing non-retryably stops after 1. -/
theorem retry_policy_bound_witness :
    retryCall (fun i => if i < 2 then Attempt.retryable else Attempt.ok 5) 7 =
      RetryResult.success 5 3 ∧
    retryCall (fun _ => (Attempt.retryable : Attempt Nat)) 7 =
      RetryResult.exhaustedRetries 7 ∧
    retryCall (fun _ => (Attempt.nonRetryable : Attempt Nat)) 7 =
      RetryResult.fatal 1 :=
  ⟨(retry_policy_bound (fun i => if i < 2 then Attempt.retryable else Attempt.ok 5) 2 5).1
      (by decide) (by decide) (by decide),
   (retry_policy_bound (fun _ => (Attempt.retryable : Attempt Nat)) 0 0).2.1
      (fun i _ => rfl),
   (retry_policy_bound (fun _ => (Attempt.nonRetryable : Attempt Nat)) 0 0).2.2 rfl⟩

/-!
`MyFacebookAdsApi.parse_call_rate_header` and `handle_call_rate_limit`
(api.py lines 49-67).  A header value is a string; the code feeds it to
`json.loads`, which raises `json.JSONDecodeError` on content that is not
valid JSON.  The model classifies a header value by that parse outcome:
`emptyStr` is the empty string (falsy in the `or` chain, so it is skipped
and never parsed), `invalidJson` is a non-empty string rejected by
`json.loads`, and `jsonObject u` is a JSON object whose relevant fields are
`u` (absent fields are `none`; numeric values are modelled as `Nat`).
`Except Unit` marks the raised exception.  The pause interval is kept in
minutes, as in `pendulum.duration(minutes=...)`.
-/

structure UsageHeader where
  call_count : Option Nat
  acc_id_util_pct : Option Nat
  estimated_time_to_regain_access : Option Nat

inductive HeaderContent where
  | emptyStr
  | invalidJson
  | jsonObject (u : UsageHeader)

/-- Python `a or b` over `headers.get` results: `None` and the empty string
are falsy. -/
def pyOrHeader (a b : Option HeaderContent) : Option HeaderContent :=
  match a with
  | none => b
  | some .emptyStr => b
  | some x => some x

def usageHeaderOf (headers : List (String × HeaderContent)) : Option HeaderContent :=
  pyOrHeader
    (pyOrHeader (lookupA "x-business-use-case-usage" headers)
      (lookupA "x-app-usage" headers))
    (lookupA "x-ad-account-usage" headers)

/-- Python `u.get(k1) or u.get(k2) or 0`: `None` and `0` are falsy. -/
def pyOrNat (a : Option Nat) (next : Nat) : Nat :=
  match a with
  | some n => if n = 0 then next else n
  | none => next

def parse_call_rate_header (headers : List (String × HeaderContent)) :
    Except Unit (Nat × Nat) :=
  match usageHeaderOf headers with
  | some .invalidJson => .error ()
  | some (.jsonObject u) =>
    .ok (pyOrNat u.call_count (pyOrNat u.acc_id_util_pct 0),
      u.estimated_time_to_regain_access.getD 0)
  | some .emptyStr => .ok (0, 0)
  | none => .ok (0, 0)

/-- `call_rate_threshold = 90`; the returned flag records whether the
`sleep` branch was taken (`call_count > 90 or pause_interval`). -/
def handle_call_rate_limit (headers : List (String × HeaderContent)) :
    Except Unit Bool :=
  match parse_call_rate_header headers with
  | .error e => .error e
  | .ok (call_count, pause_interval) =>
    .ok (decide (call_count > 90 ∨ pause_interval ≠ 0))

/-- C5 counterexample: a usage header whose value is not valid JSON makes
`parse_call_rate_header` raise (the `json.loads` error propagates), and so
`handle_call_rate_limit` fails rather than degrading to zero utilization. -/
theorem malformed_header_raises :
    parse_call_rate_header [("x-app-usage", HeaderContent.invalidJson)] =
      Except.error () ∧
    handle_call_rate_limit [("x-app-usage", HeaderContent.invalidJson)] =
      Except.error () := ⟨rfl, rfl⟩

/-- C5 amended: `parse_call_rate_header` degrades to zero utilization and a
zero pause only when the selected usage header is absent or falsy (empty),
and it tolerates a well-formed JSON object with the relevant fields missing
(defaulting them to zero); whenever the selected usage header is not
malformed JSON it never raises, and `handle_call_rate_limit` then completes.
A present malformed usage header, however, raises out of both functions. -/
theorem rate_header_parse_graceful_unless_invalid
    (headers : List (String × HeaderContent)) :
    (usageHeaderOf headers ≠ some HeaderContent.invalidJson →
      ∃ cc pi, parse_call_rate_header headers = .ok (cc, pi) ∧
        handle_call_rate_limit headers = .ok (decide (cc > 90 ∨ pi ≠ 0))) ∧
    (usageHeaderOf headers = none ∨ usageHeaderOf headers = some HeaderContent.emptyStr →
      parse_call_rate_header headers = .ok (0, 0)) ∧
    (∀ u, usageHeaderOf headers = some (HeaderContent.jsonObject u) →
      u.call_count = none → u.acc_id_util_pct = none →
      u.estimated_time_to_regain_access = none →
      parse_call_rate_header headers = .ok (0, 0)) ∧
    (usageHeaderOf headers = some HeaderContent.invalidJson →
      parse_call_rate_header headers = .error () ∧
      handle_call_rate_limit headers = .error ()) := by
  refine ⟨?_, ?_, ?_, ?_⟩
  · intro hne
    cases hu : usageHeaderOf headers with
    | none => exact ⟨0, 0, by simp [parse_call_rate_header, hu], by
        simp [handle_call_rate_limit, parse_call_rate_header, hu]⟩
    | some hc =>
      cases hc with
      | emptyStr => exact ⟨0, 0, by simp [parse_call_rate_header, hu], by
          simp [handle_call_rate_limit, parse_call_rate_header, hu]⟩
      | invalidJson => exact absurd hu hne
      | jsonObject u =>
        exact ⟨pyOrNat u.call_count (pyOrNat u.acc_id_util_pct 0),
          u.estimated_time_to_regain_access.getD 0,
          by simp [parse_call_rate_header, hu],
          by simp [handle_call_rate_limit, parse_call_rate_header, hu]⟩
  · rintro (hu | hu) <;> simp [parse_call_rate_header, hu]
  · intro u hu h1 h2 h3
    simp [parse_call_rate_header, hu, h1, h2, h3, pyOrNat]
  · intro hu
    exact ⟨by simp [parse_call_rate_header, hu],
      by simp [handle_call_rate_limit, parse_call_rate_header, hu]⟩

/-- C5 amended witness: with no usage header at all the parse returns zero
utilization and zero pause and the rate handler completes without pausing. -/
theorem rate_header_parse_graceful_unless_invalid_witness :
    parse_call_rate_header [] = Except.ok (0, 0) ∧
    handle_call_rate_limit [] = Except.ok false :=
  ⟨(rate_header_parse_graceful_unless_invalid []).2.1 (Or.inl rfl),
   by
    obtain ⟨cc, pi, hp, hh⟩ :=
      (rate_header_parse_graceful_unless_invalid []).1 (by simp [usageHeaderOf, pyOrHeader, lookupA])
    have hcc : cc = 0 ∧ pi = 0 := by
      have h0 := (rate_header_parse_graceful_unless_invalid []).2.1 (Or.inl rfl)
      rw [hp] at h0
      simpa using h0
    rw [hh, hcc.1, hcc.2]
    rfl⟩

/-!
`UserInsights.list` key construction for merged insight records (streams.py
lines 242-251, identical in client/api.py lines 329-338).  Each insight
entry bears a metric name, a period and a value; the merged record is a dict
written with `insight_record[key] = value`.  The `date` bookkeeping on the
same loop does not touch the metric keys and is not modelled.
-/

structure InsightEntry (α : Type) where
  name : String
  period : String
  value : α

def insightKey (name period : String) : String :=
  if period ∈ (["week", "days_28"] : List String) then name ++ "_" ++ period
  else name

def buildInsightRecord {α : Type} (init : List (String × α))
    (insights : List (InsightEntry α)) : List (String × α) :=
  insights.foldl (fun acc i => dictSet (insightKey i.name i.period) i.value acc) init

theorem insightKey_week (n : String) : insightKey n "week" = n ++ "_" ++ "week" := rfl

theorem insightKey_days28 (n : String) : insightKey n "days_28" = n ++ "_" ++ "days_28" := rfl

theorem insightKey_week_ne_days28 (n : String) :
    insightKey n "week" ≠ insightKey n "days_28" := by
  intro h
  have hl := congrArg String.length h
  simp [insightKey_week, insightKey_days28, String.length_append] at hl
  exact absurd hl (by decide)

/-- C6: merging two metric entries that share a name but carry periods
"week" and "days_28" stores their values under the two distinct keys
`name_week` and `name_days_28`, whatever fields the record held before,
while an entry whose period lies outside the disambiguating subset
(e.g. "day") is keyed by its name alone. -/
theorem insight_flattening_keys {α : Type} (init : List (String × α))
    (n : String) (v1 v2 : α) (p : String)
    (hp : p ∉ (["week", "days_28"] : List String)) :
    (lookupA (insightKey n "week")
        (buildInsightRecord init [⟨n, "week", v1⟩, ⟨n, "days_28", v2⟩]) = some v1) ∧
    (lookupA (insightKey n "days_28")
        (buildInsightRecord init [⟨n, "week", v1⟩, ⟨n, "days_28", v2⟩]) = some v2) ∧
    insightKey n "week" ≠ insightKey n "days_28" ∧
    insightKey n p = n := by
  have hne := insightKey_week_ne_days28 n
  refine ⟨?_, ?_, hne, ?_⟩
  · show lookupA (insightKey n "week")
      (dictSet (insightKey n "days_28") v2 (dictSet (insightKey n "week") v1 init)) = some v1
    rw [lookupA_dictSet_ne hne, lookupA_dictSet_self]
  · show lookupA (insightKey n "days_28")
      (dictSet (insightKey n "days_28") v2 (dictSet (insightKey n "week") v1 init)) = some v2
    rw [lookupA_dictSet_self]
  · simp [insightKey, hp]

/-- C6 witness: metric "impressions" with periods "week" and "days_28" lands
under "impressions_week" and "impressions_days_28", and period "day" leaves
the key "impressions" unqualified. -/
theorem insight_flattening_keys_witness :
    (lookupA (insightKey "impressions" "week")
        (buildInsightRecord ([("page_id", 1)] : List (String × Nat))
          [⟨"impressions", "week", 7⟩, ⟨"impressions", "days_28", 9⟩]) = some 7) ∧
    (lookupA (insightKey "impressions" "days_28")
        (buildInsightRecord ([("page_id", 1)] : List (String × Nat))
          [⟨"impressions", "week", 7⟩, ⟨"impressions", "days_28", 9⟩]) = some 9) ∧
    insightKey "impressions" "week" ≠ insightKey "impressions" "days_28" ∧
    insightKey "impressions" "day" = "impressions" :=
  insight_flattening_keys [("page_id", 1)] "impressions" 7 9 "day" (by decide)

/-!
`MediaInsights._get_insights` (streams.py lines 351-375, identical in
client/api.py lines 446-470) and `StoriesInsights._get_insights`
(streams.py lines 393-408, client/api.py lines 491-506).
`FacebookRequestError` is modelled by its `api_error_code()` and
`api_error_subcode()`; the provider fetch `item.get_insights(...)` is a
function of the requested metric list, returning either insights or such an
error.
-/

def MEDIA_METRICS : List String :=
  ["engagement", "impressions", "reach", "saved"]

def CAROUSEL_ALBUM_METRICS : List String :=
  ["carousel_album_engagement", "carousel_album_impressions",
   "carousel_album_reach", "carousel_album_saved"]

def STORY_METRICS : List String :=
  ["exits", "impressions", "reach", "replies", "taps_forward", "taps_back"]

/-- Metric-set selection of `MediaInsights._get_insights`, keyed on the
item's `media_type` (`item.get("media_type")`, `none` when absent). -/
def mediaInsightsMetrics (media_type : Option String) : List String :=
  if media_type = some "VIDEO" then MEDIA_METRICS ++ ["video_views"]
  else if media_type = some "CAROUSEL_ALBUM" then CAROUSEL_ALBUM_METRICS
  else MEDIA_METRICS

structure FBRequestError where
  api_error_code : Int
  api_error_subcode : Int
deriving DecidableEq

/-- `MediaInsights._get_insights`: the metric set is computed from the
discriminant first and the fetch is issued with it; an error with subcode
2108006 yields `none` ("stop, no insights"), any other error re-raises. -/
def mediaGetInsights {β : Type} (media_type : Option String)
    (fetch : List String → Except FBRequestError β) : Except FBRequestError (Option β) :=
  match fetch (mediaInsightsMetrics media_type) with
  | .ok x => .ok (some x)
  | .error e =>
    if e.api_error_subcode = 2108006 then .ok none else .error e

/-- `StoriesInsights._get_insights`: an error with code 10 yields the empty
insight list, any other error re-raises. -/
def storiesGetInsights {α : Type}
    (fetch : List String → Except FBRequestError (List α)) :
    Except FBRequestError (List α) :=
  match fetch STORY_METRICS with
  | .ok l => .ok l
  | .error e =>
    if e.api_error_code = 10 then .ok [] else .error e

/-- C8: the metric set for a media item is selected from its `media_type`
discriminant and handed to the insight fetch: "VIDEO" requests
`MEDIA_METRICS + ["video_views"]`, "CAROUSEL_ALBUM" requests exactly
`CAROUSEL_ALBUM_METRICS`, and any other discriminant requests
`MEDIA_METRICS`; `mediaGetInsights` invokes the fetch on exactly that set. -/
theorem media_metric_selection {β : Type} (mt : Option String)
    (fetch : List String → Except FBRequestError β)
    (hv : mt ≠ some "VIDEO") (hc : mt ≠ some "CAROUSEL_ALBUM") :
    mediaInsightsMetrics (some "VIDEO") = MEDIA_METRICS ++ ["video_views"] ∧
    mediaInsightsMetrics (some "CAROUSEL_ALBUM") = CAROUSEL_ALBUM_METRICS ∧
    mediaInsightsMetrics mt = MEDIA_METRICS ∧
    mediaGetInsights mt fetch =
      (match fetch MEDIA_METRICS with
       | .ok x => .ok (some x)
       | .error e =>
         if e.api_error_subcode = 2108006 then .ok none else .error e) := by
  refine ⟨rfl, rfl, ?_, ?_⟩
  · simp [mediaInsightsMetrics, hv, hc]
  · simp [mediaGetInsights, mediaInsightsMetrics, hv, hc]

/-- C8 witness: an item with `media_type = "IMAGE"` requests `MEDIA_METRICS`. -/
theorem media_metric_selection_witness :
    mediaInsightsMetrics (some "VIDEO") = MEDIA_METRICS ++ ["video_views"] ∧
    mediaInsightsMetrics (some "CAROUSEL_ALBUM") = CAROUSEL_ALBUM_METRICS ∧
    mediaInsightsMetrics (some "IMAGE") = MEDIA_METRICS ∧
    mediaGetInsights (some "IMAGE") (fun _ => (Except.ok 3 : Except FBRequestError Nat)) =
      (match (Except.ok 3 : Except FBRequestError Nat) with
       | .ok x => .ok (some x)
       | .error e =>
         if e.api_error_subcode = 2108006 then .ok none else .error e) :=
  media_metric_selection (some "IMAGE") (fun _ => Except.ok 3)
    (by decide) (by decide)

/-- C9: during an insight fetch, exactly the narrow error signatures are
downgraded: a story-insight provider error with code 10 yields the empty
insight set, a media-insight provider error with subcode 2108006 yields no
insights (`none`), and any other provider error propagates unchanged from
either fetch; successful fetches pass through untouched. -/
theorem insight_error_classification {α β : Type} (e : FBRequestError)
    (l : List α) (x : β) (mt : Option String) :
    (e.api_error_code = 10 →
      storiesGetInsights (fun _ => (Except.error e : Except FBRequestError (List α))) =
        Except.ok []) ∧
    (e.api_error_code ≠ 10 →
      storiesGetInsights (fun _ => (Except.error e : Except FBRequestError (List α))) =
        Except.error e) ∧
    storiesGetInsights (fun _ => (Except.ok l : Except FBRequestError (List α))) =
      Except.ok l ∧
    (e.api_error_subcode = 2108006 →
      mediaGetInsights mt (fun _ => (Except.error e : Except FBRequestError β)) =
        Except.ok none) ∧
    (e.api_error_subcode ≠ 2108006 →
      mediaGetInsights mt (fun _ => (Except.error e : Except FBRequestError β)) =
        Except.error e) ∧
    mediaGetInsights mt (fun _ => (Except.ok x : Except FBRequestError β)) =
      Except.ok (some x) := by
  refine ⟨?_, ?_, rfl, ?_, ?_, rfl⟩
  · intro h; simp [storiesGetInsights, h]
  · intro h; simp [storiesGetInsights, h]
  · intro h; simp [mediaGetInsights, h]
  · intro h; simp [mediaGetInsights, h]

/-- C9 witness: code 10 gives empty story insights; subcode 2108006 gives no
media insights; a code-36/subcode-99 error propagates from both fetches. -/
theorem insight_error_classification_witness :
    storiesGetInsights (fun _ => (Except.error ⟨10, 0⟩ : Except FBRequestError (List Nat))) =
      Except.ok [] ∧
    storiesGetInsights (fun _ => (Except.error ⟨36, 99⟩ : Except FBRequestError (List Nat))) =
      Except.error ⟨36, 99⟩ ∧
    mediaGetInsights (some "IMAGE")
        (fun _ => (Except.error ⟨0, 2108006⟩ : Except FBRequestError Nat)) =
      Except.ok none ∧
    mediaGetInsights (some "IMAGE")
        (fun _ => (Except.error ⟨36, 99⟩ : Except FBRequestError Nat)) =
      Except.error ⟨36, 99⟩ :=
  ⟨(insight_error_classification ⟨10, 0⟩ ([] : List Nat) 0 (some "IMAGE")).1 rfl,
   (insight_error_classification ⟨36, 99⟩ ([] : List Nat) 0 (some "IMAGE")).2.1 (by decide),
   (insight_error_classification ⟨0, 2108006⟩ ([] : List Nat) 0 (some "IMAGE")).2.2.2.1 rfl,
   (insight_error_classification ⟨36, 99⟩ ([] : List Nat) 0 (some "IMAGE")).2.2.2.2.1 (by decide)⟩

/-!
`clear_url` / `clear_query_params` (client/api.py lines 42-64; streams.py's
`_clear_url` delegates to the same parameter removal).  The code splits the
parsed query string on "&" into chunks and each chunk on "=" into
`key, value` (a chunk with any other number of "=" parts makes the unpacking
raise `ValueError`, modelled by `none`), drops chunks whose key is
`_nc_rid` or `ccb`, rebuilds `f"k=v"` chunks and joins them with "&" into
the `_replace(query=...)` result.  A query string is modelled by its split
structure: the list of its "&"-chunks, each chunk the list of its
"="-parts.  Python's `str.split` never returns an empty list — splitting
any string, including `""`, yields at least one part — so the
representation of a query string is always a non-empty chunk list, and in
particular the empty string `"&".join([])` left by dropping every chunk
re-splits to the single chunk `[""]` (one chunk with one "="-part), which
`rebuiltQuery` makes explicit.  A non-empty filtered result re-splits to
itself: its chunks are `k ++ "=" ++ v` with `k`, `v` free of "&" and "=".
The other `urlparse` components are carried unchanged through
`_replace(query=...)`.
-/

def splitEq (chunk : List String) : Option (String × String) :=
  match chunk with
  | [k, v] => some (k, v)
  | _ => none

def volatileParams : List String := ["_nc_rid", "ccb"]

def clearQueryParams : List (List String) → Option (List (List String))
  | [] => some []
  | c :: cs =>
    match splitEq c with
    | none => none
    | some (k, v) =>
      match clearQueryParams cs with
      | none => none
      | some rest =>
        if k ∈ volatileParams then some rest else some ([k, v] :: rest)

/-- The split structure of `"&".join(res_query)`: joining no chunks gives
the empty string, which re-splits to the single chunk `[""]`; joining a
non-empty chunk list re-splits to that same list. -/
def rebuiltQuery : List (List String) → List (List String)
  | [] => [[""]]
  | res => res

structure ParsedUrl where
  scheme : String
  netloc : String
  path : String
  urlParams : String
  query : List (List String)
  fragment : String
deriving DecidableEq

def clear_url_query (u : ParsedUrl) : Option ParsedUrl :=
  (clearQueryParams u.query).map fun q => { u with query := rebuiltQuery q }

/-- A chunk survives sanitization exactly when it unpacks as `k=v` with a
non-volatile key. -/
def keepChunk (c : List String) : Bool :=
  match splitEq c with
  | some kv => decide (kv.1 ∉ volatileParams)
  | none => false

theorem splitEq_shape {c : List String} {k v : String}
    (h : splitEq c = some (k, v)) : c = [k, v] := by
  match c, h with
  | [k', v'], h => cases h; rfl

theorem clearQueryParams_filter {q r : List (List String)}
    (h : clearQueryParams q = some r) : r = q.filter keepChunk := by
  induction q generalizing r with
  | nil => cases h; rfl
  | cons c cs ih =>
    cases hsp : splitEq c with
    | none => simp [clearQueryParams, hsp] at h
    | some kv =>
      obtain ⟨k, v⟩ := kv
      cases hrest : clearQueryParams cs with
      | none => simp [clearQueryParams, hsp, hrest] at h
      | some rest =>
        have hc : c = [k, v] := splitEq_shape hsp
        by_cases hk : k ∈ volatileParams
        · have hr : r = rest := by
            simp [clearQueryParams, hsp, hrest, hk] at h
            exact h.symm
          have hkeep : keepChunk c = false := by
            simp [keepChunk, hsp, hk]
          rw [hr, ih hrest, List.filter_cons, hkeep]
          simp
        · have hr : r = [k, v] :: rest := by
            simp [clearQueryParams, hsp, hrest, hk] at h
            exact h.symm
          have hkeep : keepChunk c = true := by
            simp [keepChunk, hsp, hk]
          rw [hr, ih hrest, List.filter_cons, hkeep, hc]
          simp

theorem clearQueryParams_idem {q r : List (List String)}
    (h : clearQueryParams q = some r) : clearQueryParams r = some r := by
  induction q generalizing r with
  | nil => cases h; rfl
  | cons c cs ih =>
    cases hsp : splitEq c with
    | none => simp [clearQueryParams, hsp] at h
    | some kv =>
      obtain ⟨k, v⟩ := kv
      cases hrest : clearQueryParams cs with
      | none => simp [clearQueryParams, hsp, hrest] at h
      | some rest =>
        by_cases hk : k ∈ volatileParams
        · have hr : r = rest := by
            simp [clearQueryParams, hsp, hrest, hk] at h
            exact h.symm
          rw [hr]; exact ih hrest
        · have hr : r = [k, v] :: rest := by
            simp [clearQueryParams, hsp, hrest, hk] at h
            exact h.symm
          rw [hr]
          simp [clearQueryParams, splitEq, ih hrest, hk]

theorem rebuiltQuery_of_ne_nil {r : List (List String)} (h : r ≠ []) :
    rebuiltQuery r = r := by
  cases r with
  | nil => exact absurd rfl h
  | cons c cs => rfl

/-- C7 counterexample: on a URL whose query consists solely of the volatile
parameter `_nc_rid`, the first sanitization succeeds and leaves the empty
query string; re-splitting it yields the single chunk `""`, whose
`key, value` unpacking raises `ValueError`, so the second sanitization
fails and `sanitize (sanitize u)` differs from `sanitize u`. -/
theorem url_sanitization_not_idempotent :
    clear_url_query
        ⟨"https", "scontent.cdninstagram.com", "/v/video.mp4", "",
          [["_nc_rid", "abc"]], ""⟩ =
      some ⟨"https", "scontent.cdninstagram.com", "/v/video.mp4", "",
        [[""]], ""⟩ ∧
    clear_url_query
        ⟨"https", "scontent.cdninstagram.com", "/v/video.mp4", "",
          [[""]], ""⟩ = none ∧
    (clear_url_query
        ⟨"https", "scontent.cdninstagram.com", "/v/video.mp4", "",
          [["_nc_rid", "abc"]], ""⟩).bind clear_url_query ≠
      clear_url_query
        ⟨"https", "scontent.cdninstagram.com", "/v/video.mp4", "",
          [["_nc_rid", "abc"]], ""⟩ := by
  refine ⟨rfl, rfl, ?_⟩
  decide

/-- C7 amended: URL sanitization drops exactly the query chunks keyed
`_nc_rid` or `ccb`, preserving every other chunk and their order, and leaves
the scheme, network location, path, parameters and fragment untouched; it is
idempotent whenever it does not remove every parameter (re-sanitizing then
returns the same URL, and a URL on which it raises keeps raising), but when
every parameter is volatile the rebuilt empty query re-splits to the single
chunk `""` and a second sanitization raises `ValueError`. -/
theorem url_sanitization_idempotent_unless_emptied (u : ParsedUrl)
    (q r : List (List String)) (hq : clearQueryParams q = some r) :
    r = q.filter keepChunk ∧
    (∀ u', clear_url_query u = some u' →
      u'.scheme = u.scheme ∧ u'.netloc = u.netloc ∧ u'.path = u.path ∧
      u'.urlParams = u.urlParams ∧ u'.fragment = u.fragment ∧
      ∃ r', clearQueryParams u.query = some r' ∧ u'.query = rebuiltQuery r') ∧
    ((∀ r', clearQueryParams u.query = some r' → r' ≠ []) →
      (clear_url_query u).bind clear_url_query = clear_url_query u) ∧
    (∀ u', clear_url_query u = some u' → clearQueryParams u.query = some [] →
      clear_url_query u' = none) := by
  refine ⟨clearQueryParams_filter hq, ?_, ?_, ?_⟩
  · intro u' hu'
    cases hu : clearQueryParams u.query with
    | none => simp [clear_url_query, hu] at hu'
    | some q' =>
      simp [clear_url_query, hu] at hu'
      rw [← hu']
      exact ⟨rfl, rfl, rfl, rfl, rfl, q', rfl, rfl⟩
  · intro hne
    cases hu : clearQueryParams u.query with
    | none => simp [clear_url_query, hu]
    | some r' =>
      have hr' : rebuiltQuery r' = r' := rebuiltQuery_of_ne_nil (hne r' hu)
      simp [clear_url_query, hu, hr', clearQueryParams_idem hu]
  · intro u' hu' hempty
    simp [clear_url_query, hempty] at hu'
    rw [← hu']
    simp [clear_url_query, rebuiltQuery, clearQueryParams, splitEq]

/-- C7 amended witness: sanitizing the query `a=1&_nc_rid=x` keeps exactly
`a=1`, and since a parameter survives, re-sanitizing the concrete URL
returns it unchanged. -/
theorem url_sanitization_idempotent_unless_emptied_witness :
    ([["a", "1"]] : List (List String)) =
      ([["a", "1"], ["_nc_rid", "x"]].filter keepChunk) ∧
    ((clear_url_query ⟨"https", "scontent.cdninstagram.com", "/v/t51", "",
        [["a", "1"], ["_nc_rid", "x"]], ""⟩).bind clear_url_query =
      clear_url_query ⟨"https", "scontent.cdninstagram.com", "/v/t51", "",
        [["a", "1"], ["_nc_rid", "x"]], ""⟩) :=
  ⟨(url_sanitization_idempotent_unless_emptied
      ⟨"https", "scontent.cdninstagram.com", "/v/t51", "",
        [["a", "1"], ["_nc_rid", "x"]], ""⟩
      [["a", "1"], ["_nc_rid", "x"]] [["a", "1"]] rfl).1,
   (url_sanitization_idempotent_unless_emptied
      ⟨"https", "scontent.cdninstagram.com", "/v/t51", "",
        [["a", "1"], ["_nc_rid", "x"]], ""⟩
      [["a", "1"], ["_nc_rid", "x"]] [["a", "1"]] rfl).2.2.1
    (by
      intro r' h
      have h2 : clearQueryParams [["a", "1"], ["_nc_rid", "x"]] = some [["a", "1"]] := rfl
      rw [h2] at h
      rw [← Option.some_inj.mp h]
      decide)⟩

/-!
`IncrementalSquareStream.request_params` (source_square/source.py lines
146-169).  `cursor_field = "created_at"`, `items_per_page_limit = 100`.
`super().request_params` is the host framework's `HttpStream.request_params`,
whose default is the empty mapping; the following guard replaces a falsy
result with `{}` either way.  A next-page token is the dict
`{"cursor": <cursor>}` produced by `next_page_token`, which is non-empty and
hence truthy whenever it is not `None`; it is modelled by the cursor string.
On a truthy token the method executes `return params_payload.update({...})`,
and `dict.update` returns `None`, modelled by `none`; parameter values are
strings or the integer limit.
-/

inductive PVal where
  | str (s : String)
  | num (n : Nat)
deriving DecidableEq

def request_params (stream_state : List (String × String))
    (next_page_token : Option String) : Option (List (String × PVal)) :=
  let params0 : List (String × PVal) := []
  let params1 :=
    match lookupA "created_at" stream_state with
    | some w => dictSet "begin_time" (PVal.str w) params0
    | none => params0
  match next_page_token with
  | some _ => none
  | none => some (dictSet "limit" (PVal.num 100) params1)

/-- C10: with a non-`None` next-page token, `request_params` returns `None`
(the value of `dict.update`), so the begin_time, cursor and limit computed in
the body are all absent from the returned parameters; with no token it
returns a mapping holding the limit 100, preceded by `begin_time` exactly
when the cursor field `created_at` is present in the stream state. -/
theorem request_params_token_returns_none
    (stream_state : List (String × String)) (tok : Option String)
    (c v : String) :
    (tok = some c → request_params stream_state tok = none) ∧
    (lookupA "created_at" stream_state = some v →
      request_params stream_state none =
        some [("begin_time", PVal.str v), ("limit", PVal.num 100)]) ∧
    (lookupA "created_at" stream_state = none →
      request_params stream_state none = some [("limit", PVal.num 100)]) := by
  refine ⟨?_, ?_, ?_⟩
  · rintro rfl
    cases hs : lookupA "created_at" stream_state <;>
      simp [request_params, hs]
  · intro hs
    simp [request_params, hs, dictSet, setA]
  · intro hs
    simp [request_params, hs, dictSet]

/-- C10 witness: a state carrying `created_at` and the token "CUR" returns
`None`, while the same state without a token returns begin_time and limit. -/
theorem request_params_token_returns_none_witness :
    request_params [("created_at", "2021-06-14T13:47:56Z")] (some "CUR") = none ∧
    request_params [("created_at", "2021-06-14T13:47:56Z")] none =
      some [("begin_time", PVal.str "2021-06-14T13:47:56Z"), ("limit", PVal.num 100)] :=
  ⟨(request_params_token_returns_none [("created_at", "2021-06-14T13:47:56Z")]
      (some "CUR") "CUR" "2021-06-14T13:47:56Z").1 rfl,
   (request_params_token_returns_none [("created_at", "2021-06-14T13:47:56Z")]
      (some "CUR") "CUR" "2021-06-14T13:47:56Z").2.1 rfl⟩
